import Mathlib

/-
Shallow embedding of the medical-rotation scheduling core
(scheduler/config.py, scheduler/parser.py, scheduler/model.py,
scheduler/writer.py) and proofs about the claims of its specification.

Python machine values are modelled as Int where Python ints/truthiness
matter, and CP-SAT constraint emission is modelled as the construction of
explicit constraint lists with an evaluation (satisfaction) function.
-/

-- ===========================================================================
-- scheduler/config.py
-- ===========================================================================

-- config.py: NUM_BLOCKS = 13
def NUM_BLOCKS : Nat := 13

-- config.py: CLINICAL_ROTATIONS
def CLINICAL_ROTATIONS : List String :=
  ["Cardiology", "Endocrine", "Infectious Disease", "AMAU", "Nephrology",
   "Neurology", "CCU", "MICU", "Al Khor", "MOP", "Geriatrics", "Hematology",
   "Oncology", "Al Wakra", "GI", "Pulmonology", "Rheumatology", "ED",
   "Medical Consultation", "Medical Teams", "Senior Rotation",
   "Registrar Rotation"]

-- config.py: LEAVE_ROTATION / TRANSFER_ROTATION
def LEAVE_ROTATION : String := "LEAVE"

def TRANSFER_ROTATION : String := "TRANSFER"

-- config.py: ALL_ROTATIONS = CLINICAL_ROTATIONS + [LEAVE_ROTATION, TRANSFER_ROTATION]
def ALL_ROTATIONS : List String :=
  CLINICAL_ROTATIONS ++ [LEAVE_ROTATION, TRANSFER_ROTATION]

-- config.py: REWARD_WEIGHT = 1, PENALTY_WEIGHT = -1
def REWARD_WEIGHT : Int := 1

def PENALTY_WEIGHT : Int := -1

-- config.py: dataclass PGYRequirement(rotations, min_blocks, max_blocks)
structure PGYRequirement where
  rotations : List String
  min_blocks : Nat
  max_blocks : Nat
deriving DecidableEq

-- config.py: GRADUATION_REQUIREMENTS (dict modelled as an association list)
def GRADUATION_REQUIREMENTS : List (String × List PGYRequirement) :=
  [("R1",
    [⟨["Medical Teams"], 4, 7⟩, ⟨["AMAU"], 1, 2⟩, ⟨["Cardiology"], 2, 2⟩,
     ⟨["Infectious Disease"], 1, 2⟩, ⟨["Endocrine"], 1, 2⟩]),
   ("R2",
    [⟨["Senior Rotation"], 1, 2⟩, ⟨["CCU"], 2, 2⟩, ⟨["MICU"], 2, 2⟩,
     ⟨["Nephrology"], 1, 2⟩, ⟨["Neurology"], 1, 1⟩, ⟨["Cardiology"], 1, 1⟩,
     ⟨["Geriatrics"], 1, 1⟩, ⟨["AMAU"], 1, 2⟩, ⟨["Al Khor"], 0, 1⟩,
     ⟨["MOP"], 1, 1⟩]),
   ("R3",
    [⟨["Senior Rotation"], 2, 2⟩, ⟨["Oncology"], 1, 1⟩, ⟨["Hematology"], 1, 1⟩,
     ⟨["Al Wakra"], 1, 1⟩, ⟨["GI"], 2, 2⟩, ⟨["Pulmonology"], 2, 2⟩,
     ⟨["Rheumatology"], 1, 1⟩, ⟨["MOP"], 1, 1⟩, ⟨["AMAU"], 1, 1⟩,
     ⟨["Cardiology", "ED", "Medical Consultation"], 1, 1⟩]),
   ("R4",
    [⟨["Registrar Rotation"], 5, 6⟩, ⟨["Medical Consultation"], 3, 5⟩,
     ⟨["Al Wakra"], 1, 2⟩, ⟨["Al Khor"], 1, 2⟩,
     ⟨["Hematology", "Oncology"], 1, 2⟩]),
   ("R4_Chiefs",
    [⟨["Registrar Rotation"], 5, 7⟩, ⟨["Medical Consultation"], 6, 8⟩]),
   ("R_NEURO",
    [⟨["Medical Teams"], 3, 3⟩, ⟨["AMAU"], 3, 4⟩, ⟨["MICU"], 1, 1⟩,
     ⟨["Rheumatology"], 1, 1⟩, ⟨["ED"], 2, 2⟩, ⟨["TRANSFER"], 2, 2⟩])]

-- config.py: LEAVE_ELIGIBLE_ROTATIONS, accessed in model.py through
-- LEAVE_ELIGIBLE_ROTATIONS.get(pgy, set()), hence the empty default branch.
def LEAVE_ELIGIBLE_ROTATIONS (pgy : String) : List String :=
  if pgy == "R1" then ["Endocrine", "AMAU", "Infectious Disease"]
  else if pgy == "R2" then ["MOP", "Nephrology", "AMAU"]
  else if pgy == "R3" then ["GI", "Pulmonology", "AMAU"]
  else if pgy == "R4" then ["Medical Consultation"]
  else if pgy == "R_NEURO" then ["AMAU"]
  else []

-- ===========================================================================
-- scheduler/parser.py
-- ===========================================================================

-- parser.py: rotation_to_idx = {rot: i for i, rot in enumerate(ALL_ROTATIONS)}.
-- ALL_ROTATIONS has no duplicate names, so the index of each name is its
-- unique position in the list; idxOf finds that position.
def idxOf : List String → String → Option Nat
  | [], _ => none
  | r :: rs, rot => if r == rot then some 0 else (idxOf rs rot).map (· + 1)

def rotation_to_idx (rot : String) : Option Nat :=
  idxOf ALL_ROTATIONS rot

-- parser.py: self.leave_idx = self.rotation_to_idx[LEAVE_ROTATION]
-- (direct dict access; LEAVE is always in the catalog).
def leave_idx : Nat := (rotation_to_idx LEAVE_ROTATION).getD 0

-- parser.py: the "full" and "half" sets stored per resident in leave_dict.
structure LeaveInfo where
  full : List Int
  half : List Int
deriving DecidableEq

-- parser.py: _parse_leave_requests.  Python truthiness `if block1` is
-- `block1 ≠ 0`; "full"/"half" are sets, modelled as lists (the lists built
-- here never contain duplicates).
def parseLeaveRequests (block1 block2 : Int) : LeaveInfo :=
  if block1 ≠ 0 ∧ block1 = block2 then
    { full := [block1], half := [] }
  else
    { full := [],
      half := (if block1 ≠ 0 then [block1] else []) ++
              (if block2 ≠ 0 then [block2] else []) }

-- parser.py: GRADUATION_REQUIREMENTS[pgy] dict lookup.
def gradReqsLookup (pgy : String) : Option (List PGYRequirement) :=
  (GRADUATION_REQUIREMENTS.find? (fun kv => kv.1 == pgy)).map (fun kv => kv.2)

-- parser.py: _build_eligibility_map builds, for each key of
-- GRADUATION_REQUIREMENTS, the set of all rotations named in its
-- requirements, plus LEAVE, plus TRANSFER for R_NEURO.  model.py then reads
-- it through eligibility_map.get(pgy, set()), hence the empty default.
-- Python sets are modelled as lists; duplicates are harmless because every
-- consumer is membership-based.
def eligibility_map (pgy : String) : List String :=
  match gradReqsLookup pgy with
  | none => []
  | some reqs =>
      (reqs.map (fun req => req.rotations)).flatten ++ [LEAVE_ROTATION] ++
        (if pgy == "R_NEURO" then [TRANSFER_ROTATION] else [])

-- ===========================================================================
-- scheduler/model.py : _get_assignment_domain
-- ===========================================================================

-- model.py: _get_assignment_domain.  Returns the list of allowed rotation
-- indices for one (resident, block) slot.  The Python list comprehension
-- keeps rot when rot != LEAVE_ROTATION and rot is a key of rotation_to_idx,
-- and maps it to its index; filter + filterMap below is exactly that.
-- The function is total: an empty eligible set yields the empty domain,
-- no error path exists in the source.
def getAssignmentDomain (bIdx : Nat) (li : LeaveInfo) (pgy : String) : List Nat :=
  if ((bIdx : Int) + 1) ∈ li.full then
    [leave_idx]
  else
    let eligible := eligibility_map pgy
    let eligible :=
      if ((bIdx : Int) + 1) ∈ li.half then
        eligible.filter (fun rot => rot ∈ LEAVE_ELIGIBLE_ROTATIONS pgy)
      else eligible
    (eligible.filter (fun rot => rot != LEAVE_ROTATION)).filterMap rotation_to_idx

-- ===========================================================================
-- scheduler/model.py : _create_decision_variables
-- ===========================================================================

-- model.py: y[r, b, rot] = NewBoolVar linked both ways to x[r, b], followed
-- by one AddExactlyOne over all rotations.  The constraints emitted for one
-- (resident, block) cell, in emission order, as data:
--   linkEq rot idx  : Add(x == idx).OnlyEnforceIf(y[rot])
--   linkNe rot idx  : Add(x != idx).OnlyEnforceIf(y[rot].Not())
--   exactlyOne rots : AddExactlyOne([y[rot] for rot in rots])
inductive DecisionConstraint where
  | linkEq (rot : String) (idx : Nat)
  | linkNe (rot : String) (idx : Nat)
  | exactlyOne (rots : List String)
deriving DecidableEq

-- model.py: rot_idx = self.data.rotation_to_idx[rot], direct dict access on
-- a catalog member (always present).
def rotIdx (rot : String) : Nat := (rotation_to_idx rot).getD 0

def decisionConstraints : List DecisionConstraint :=
  (ALL_ROTATIONS.flatMap (fun rot =>
    [DecisionConstraint.linkEq rot (rotIdx rot),
     DecisionConstraint.linkNe rot (rotIdx rot)])) ++
  [DecisionConstraint.exactlyOne ALL_ROTATIONS]

-- Evaluation of one cell's constraints under a valuation: sx is the value of
-- the categorical variable x[r, b], sy the value of each indicator y[r, b, rot].
def decSat (sx : Int) (sy : String → Bool) : DecisionConstraint → Bool
  | DecisionConstraint.linkEq rot idx => !(sy rot) || (sx == (idx : Int))
  | DecisionConstraint.linkNe rot idx => (sy rot) || (sx != (idx : Int))
  | DecisionConstraint.exactlyOne rots => rots.countP sy == 1

-- ===========================================================================
-- scheduler/model.py : _add_hard_forced_and_forbidden_assignments
-- ===========================================================================

inductive HardConstraint where
  | eqC (r b idx : Nat)
  | neC (r b idx : Nat)
deriving DecidableEq

-- model.py: for each forced entry, rotation_to_idx.get(rot_name); the
-- constraint x[r,b] == idx is added only when the name is a catalog key,
-- otherwise the entry is skipped; same for forbidden with x[r,b] != idx.
-- The method is total: no validation against the domain and no error path.
def addForcedAndForbidden
    (forced forbidden : List ((Nat × Nat) × String)) : List HardConstraint :=
  forced.filterMap (fun e =>
    (rotation_to_idx e.2).map (fun i => HardConstraint.eqC e.1.1 e.1.2 i)) ++
  forbidden.filterMap (fun e =>
    (rotation_to_idx e.2).map (fun i => HardConstraint.neC e.1.1 e.1.2 i))

-- ===========================================================================
-- scheduler/model.py : _add_hard_graduation_requirements
-- ===========================================================================

-- model.py: set(requirement.rotations) == {"Cardiology","ED","Medical Consultation"}
-- is Python set equality, i.e. mutual inclusion.
def sameSet (a b : List String) : Bool :=
  a.all (fun x => b.contains x) && b.all (fun x => a.contains x)

-- model.py: the `continue` guard of the R3 elective-group exemption.
def isExemptReq (pgy : String) (req : PGYRequirement) (fullLeave : List Int) : Bool :=
  (pgy == "R3") &&
  sameSet req.rotations ["Cardiology", "ED", "Medical Consultation"] &&
  !fullLeave.isEmpty

-- model.py: the summation guard `if rot in self.data.rotation_to_idx`.
def keptRots (req : PGYRequirement) : List String :=
  req.rotations.filter (fun rot => (rotation_to_idx rot).isSome)

inductive GradConstraint where
  | sumGe (r : Nat) (rots : List String) (n : Nat)
  | sumLe (r : Nat) (rots : List String) (n : Nat)
deriving DecidableEq

-- model.py: body of the requirement loop for one resident r: either the
-- exemption's `continue`, or the two bound constraints on the group sum.
def reqConstraints (r : Nat) (pgy : String) (fullLeave : List Int)
    (req : PGYRequirement) : List GradConstraint :=
  if isExemptReq pgy req fullLeave then []
  else
    [GradConstraint.sumGe r (keptRots req) req.min_blocks,
     GradConstraint.sumLe r (keptRots req) req.max_blocks]

-- model.py: GRADUATION_REQUIREMENTS[pgy] (KeyError on an unknown key; the
-- theorems below only instantiate pgy at keys of the table).
def gradReqsOf (pgy : String) : List PGYRequirement :=
  (gradReqsLookup pgy).getD []

def gradConstraintsFor (r : Nat) (pgy : String) (fullLeave : List Int) :
    List GradConstraint :=
  (gradReqsOf pgy).flatMap (reqConstraints r pgy fullLeave)

-- sum(y[r, b, rot] for b in range(NUM_BLOCKS) for rot in rots) under a
-- valuation yv of the indicator variables.
def countAssign (yv : Nat → Nat → String → Bool) (r : Nat)
    (rots : List String) : Nat :=
  ((List.range NUM_BLOCKS).flatMap (fun b => rots.filter (fun rot => yv r b rot))).length

def gradSat (yv : Nat → Nat → String → Bool) : GradConstraint → Prop
  | GradConstraint.sumGe r rots n => n ≤ countAssign yv r rots
  | GradConstraint.sumLe r rots n => countAssign yv r rots ≤ n

-- ===========================================================================
-- scheduler/model.py : soft constraints (objective construction)
-- ===========================================================================

-- The condition variables created by the four _add_soft_* methods.
inductive SoftVar where
  | consec (r b : Nat) (rot : String)
  | gap1 (r b : Nat)
  | allFour (r start : Nat)
  | tooLong (r start : Nat)
deriving DecidableEq

-- Linking constraints attached to a condition variable v:
--   impliesAll v lits    : AddBoolAnd(lits).OnlyEnforceIf(v)
--                          — v true forces every listed indicator true;
--   impliesNotAll v lits : AddBoolOr([l.Not() for l in lits]).OnlyEnforceIf(v.Not())
--                          — v false forces some listed indicator false.
inductive SoftConstraint where
  | impliesAll (v : SoftVar) (lits : List (Nat × Nat × String))
  | impliesNotAll (v : SoftVar) (lits : List (Nat × Nat × String))
deriving DecidableEq

-- model.py: _create_consecutive_bool — the helper emits BOTH directions.
def createConsecutiveBool (r b : Nat) (rot : String) :
    SoftVar × List SoftConstraint :=
  (SoftVar.consec r b rot,
   [SoftConstraint.impliesAll (SoftVar.consec r b rot) [(r, b, rot), (r, b + 1, rot)],
    SoftConstraint.impliesNotAll (SoftVar.consec r b rot) [(r, b, rot), (r, b + 1, rot)]])

-- model.py: _add_soft_r3_penalties — linking constraints emitted for one
-- resident.  The gap1 condition gets ONLY the forward AddBoolAnd direction
-- in the source (no reverse constraint is emitted for it).
def addSoftR3Constraints (r : Nat) (pgy : String) : List SoftConstraint :=
  if pgy == "R3" then
    (List.range (NUM_BLOCKS - 2)).flatMap (fun b =>
      (createConsecutiveBool r b "Senior Rotation").2 ++
      [SoftConstraint.impliesAll (SoftVar.gap1 r b)
        [(r, b, "Senior Rotation"), (r, b + 2, "Senior Rotation")]])
  else []

def softSat (yv : Nat → Nat → String → Bool) (nv : SoftVar → Bool) :
    SoftConstraint → Bool
  | SoftConstraint.impliesAll v lits =>
      !(nv v) || lits.all (fun l => yv l.1 l.2.1 l.2.2)
  | SoftConstraint.impliesNotAll v lits =>
      (nv v) || !(lits.all (fun l => yv l.1 l.2.1 l.2.2))

def mentionsVar (v : SoftVar) : SoftConstraint → Bool
  | SoftConstraint.impliesAll w _ => w == v
  | SoftConstraint.impliesNotAll w _ => w == v

-- ===========================================================================
-- scheduler/model.py : _set_objective_function bookkeeping
-- ===========================================================================

-- The builder state touched by objective construction:
-- __init__ sets objective_terms = [] and soft_constraints_map = {}.
-- Each _add_soft_* method appends (weight, condition-variable) pairs to
-- objective_terms via self.objective_terms.append(weight * var); none of
-- them writes soft_constraints_map (the name occurs nowhere in model.py
-- outside __init__), and no maximum-achievable-score value is computed
-- anywhere in model.py.
structure BuilderState where
  objectiveTerms : List (Int × SoftVar)
  softConstraintsMap : List (String × SoftVar)
deriving DecidableEq

def initBuilderState : BuilderState :=
  { objectiveTerms := [], softConstraintsMap := [] }

def pushTerm (st : BuilderState) (t : Int × SoftVar) : BuilderState :=
  { st with objectiveTerms := st.objectiveTerms ++ [t] }

-- model.py: _add_soft_r1_penalties
def addSoftR1Penalties (pgys : List String) (st : BuilderState) : BuilderState :=
  pgys.enum.foldl (fun s rp =>
    if rp.2 == "R1" then
      let s :=
        (List.range (NUM_BLOCKS - 3)).foldl
          (fun s2 start => pushTerm s2 (PENALTY_WEIGHT, SoftVar.allFour rp.1 start)) s
      (List.range (NUM_BLOCKS - 1)).foldl
        (fun s2 b => pushTerm s2 (PENALTY_WEIGHT, SoftVar.consec rp.1 b "Cardiology")) s
    else s) st

-- model.py: _add_soft_r2_rewards
def addSoftR2Rewards (pgys : List String) (st : BuilderState) : BuilderState :=
  pgys.enum.foldl (fun s rp =>
    if rp.2 == "R2" then
      (List.range (NUM_BLOCKS - 1)).foldl
        (fun s2 b =>
          pushTerm (pushTerm s2 (2 * REWARD_WEIGHT, SoftVar.consec rp.1 b "MICU"))
            (2 * REWARD_WEIGHT, SoftVar.consec rp.1 b "CCU")) s
    else s) st

-- model.py: _add_soft_r3_penalties (objective-term side)
def addSoftR3Penalties (pgys : List String) (st : BuilderState) : BuilderState :=
  pgys.enum.foldl (fun s rp =>
    if rp.2 == "R3" then
      (List.range (NUM_BLOCKS - 2)).foldl
        (fun s2 b =>
          pushTerm
            (pushTerm s2 (2 * PENALTY_WEIGHT, SoftVar.consec rp.1 b "Senior Rotation"))
            (PENALTY_WEIGHT, SoftVar.gap1 rp.1 b)) s
    else s) st

-- model.py: _add_soft_r4_penalties
def addSoftR4Penalties (pgys : List String) (st : BuilderState) : BuilderState :=
  pgys.enum.foldl (fun s rp =>
    if rp.2 == "R4" || rp.2 == "R4_Chiefs" then
      (List.range (NUM_BLOCKS - 5)).foldl
        (fun s2 start => pushTerm s2 (2 * PENALTY_WEIGHT, SoftVar.tooLong rp.1 start)) s
    else s) st

-- model.py: _set_objective_function runs the four methods in order on the
-- state initialized by __init__ (per-resident PGY levels given by pgys).
def setObjectiveFunction (pgys : List String) : BuilderState :=
  addSoftR4Penalties pgys
    (addSoftR3Penalties pgys
      (addSoftR2Rewards pgys
        (addSoftR1Penalties pgys initBuilderState)))

-- ===========================================================================
-- scheduler/writer.py : _analyze_soft_constraints
-- ===========================================================================

-- Python substring test `needle in hay`, on character lists.
def leadsChars : List Char → List Char → Bool
  | [], _ => true
  | _ :: _, [] => false
  | a :: as, b :: bs => a == b && leadsChars as bs

def subChars (needle : List Char) : List Char → Bool
  | [] => needle.isEmpty
  | c :: rest => leadsChars needle (c :: rest) || subChars needle rest

def pyIn (needle hay : String) : Bool :=
  subChars needle.toList hay.toList

-- writer.py: the weight recovered by substring inspection of a rule's
-- description; a description in neither the REWARD nor the PENALTY branch
-- contributes nothing to the raw score (modelled as weight 0).
def entryWeight (desc : String) : Int :=
  if pyIn "REWARD" desc then
    if pyIn "MICU" desc || pyIn "CCU" desc || pyIn "Hematology/Oncology" desc then
      2 * REWARD_WEIGHT
    else REWARD_WEIGHT
  else if pyIn "PENALTY" desc then
    if pyIn "Senior" desc || pyIn "Registrar" desc then 2 * PENALTY_WEIGHT
    else PENALTY_WEIGHT
  else 0

-- writer.py: the raw_score accumulation over soft_constraints_map items;
-- each entry is (description, solver value of its condition variable).
def rawScore (entries : List (String × Bool)) : Int :=
  entries.foldl (fun acc e => if e.2 then acc + entryWeight e.1 else acc) 0

-- writer.py: the NORMALIZATION LOGIC block.
def normalizedScore (maxPossibleScore rawS : Int) : ℚ :=
  if 0 < maxPossibleScore then (rawS : ℚ) / (maxPossibleScore : ℚ)
  else if rawS = 0 then 1 else 0

-- ===========================================================================
-- Helper lemmas
-- ===========================================================================

-- The catalog has no duplicate rotation names, so the dict comprehension
-- {rot: i for i, rot in enumerate(ALL_ROTATIONS)} assigns each name its
-- unique position.
theorem allRotations_nodup : ALL_ROTATIONS.Nodup := by decide

theorem idxOf_get (l : List String) (rot : String) :
    ∀ i : Nat, idxOf l rot = some i → l[i]? = some rot := by
  induction l with
  | nil => intro i h; simp [idxOf] at h
  | cons a as ih =>
    intro i h
    rw [idxOf] at h
    by_cases ha : (a == rot) = true
    · rw [if_pos ha] at h
      cases h
      simpa using (eq_of_beq ha)
    · rw [if_neg ha] at h
      rcases Option.map_eq_some'.mp h with ⟨j, hj, rfl⟩
      simpa using ih j hj

-- No rotation other than LEAVE is mapped to leave_idx, so after the
-- rot != LEAVE_ROTATION filter the LEAVE index can never appear.
theorem leave_not_in_filtered (l : List String) :
    leave_idx ∉ (l.filter (fun rot => rot != LEAVE_ROTATION)).filterMap rotation_to_idx := by
  intro hmem
  rcases List.mem_filterMap.mp hmem with ⟨rot, hrot, hidx⟩
  have hget := idxOf_get ALL_ROTATIONS rot leave_idx hidx
  have hleave : ALL_ROTATIONS[leave_idx]? = some LEAVE_ROTATION := by decide
  have hrotLeave : rot = LEAVE_ROTATION := by
    rw [hleave] at hget
    exact (Option.some_inj.mp hget).symm
  have hne := List.of_mem_filter hrot
  rw [hrotLeave] at hne
  simp at hne

-- ===========================================================================
-- Claims
-- ===========================================================================

/-- Claim C1 (refuted by the code): _add_hard_forced_and_forbidden_assignments
performs no validation of a forced pin against the computed (resident, block)
domain and has no error path: for a forced override pinning resident 0
(an R1 with no leave) in block index 1 to MICU — a rotation outside that
resident's computed domain — the builder emits the contradictory hard
equality constraint x[0,1] == 7 and raises nothing, so the contradictory
model is what reaches the solver. -/
theorem C1_forced_override_no_validation :
    addForcedAndForbidden [((0, 1), "MICU")] [] = [HardConstraint.eqC 0 1 7] ∧
    rotation_to_idx "MICU" = some 7 ∧
    7 ∉ getAssignmentDomain 1 ⟨[], []⟩ "R1" := by
  exact ⟨by decide, by decide, by decide⟩

/-- Claim C3 (refuted by the code): for a training level with no entry in the
graduation-requirement table (so step 2 of domain construction yields the
empty eligible set), _get_assignment_domain silently returns the empty
domain — no configuration error is raised anywhere on this path, and the
zero-domain decision variable is produced. -/
theorem C3_empty_domain_not_rejected :
    eligibility_map "R5" = [] ∧
    getAssignmentDomain 0 ⟨[], []⟩ "R5" = [] := by
  exact ⟨by decide, by decide⟩

/-- Claim C5: the computed assignment domain is exactly the singleton
holding the LEAVE index whenever the block is a full-leave block for the
resident, and for every other (resident, block) pair the LEAVE index never
occurs in the computed domain. -/
theorem C5_leave_domain (bIdx : Nat) (li : LeaveInfo) (pgy : String) :
    (((bIdx : Int) + 1) ∈ li.full →
      getAssignmentDomain bIdx li pgy = [leave_idx] ∧
      ALL_ROTATIONS[leave_idx]? = some LEAVE_ROTATION) ∧
    (((bIdx : Int) + 1) ∉ li.full →
      leave_idx ∉ getAssignmentDomain bIdx li pgy) := by
  constructor
  · intro h
    refine ⟨?_, by decide⟩
    simp [getAssignmentDomain, h]
  · intro h
    simp only [getAssignmentDomain, if_neg h]
    by_cases hh : ((bIdx : Int) + 1) ∈ li.half
    · simp only [if_pos hh]
      exact leave_not_in_filtered _
    · simp only [if_neg hh]
      exact leave_not_in_filtered _

/-- Witness for C5: a resident with full leave in block 3 gets the singleton
LEAVE domain in block index 2, and an R1 with no leave never has the LEAVE
index in the block-0 domain. -/
theorem C5_leave_domain_witness :
    (getAssignmentDomain 2 ⟨[3], []⟩ "R2" = [leave_idx] ∧
      ALL_ROTATIONS[leave_idx]? = some LEAVE_ROTATION) ∧
    leave_idx ∉ getAssignmentDomain 0 ⟨[], []⟩ "R1" :=
  ⟨(C5_leave_domain 2 ⟨[3], []⟩ "R2").1 (by decide),
   (C5_leave_domain 0 ⟨[], []⟩ "R1").2 (by decide)⟩

/-- Claim C9: _parse_leave_requests records a single full-leave block exactly
when both (nonzero) leave requests name the same block, otherwise records
each distinct nonzero named block as half-leave; the full and half sets are
disjoint, with at most one full-leave and at most two half-leave blocks. -/
theorem C9_parse_leave (b1 b2 : Int) :
    (b1 ≠ 0 → b1 = b2 → parseLeaveRequests b1 b2 = ⟨[b1], []⟩) ∧
    (¬(b1 ≠ 0 ∧ b1 = b2) →
      (parseLeaveRequests b1 b2).full = [] ∧
      ∀ x : Int, x ∈ (parseLeaveRequests b1 b2).half ↔ x ≠ 0 ∧ (x = b1 ∨ x = b2)) ∧
    (∀ x, x ∈ (parseLeaveRequests b1 b2).full → x ∉ (parseLeaveRequests b1 b2).half) ∧
    (parseLeaveRequests b1 b2).full.length ≤ 1 ∧
    (parseLeaveRequests b1 b2).half.length ≤ 2 := by
  unfold parseLeaveRequests
  by_cases hc : b1 ≠ 0 ∧ b1 = b2
  · rw [if_pos hc]
    refine ⟨fun _ _ => rfl, fun hn => absurd hc hn, ?_, by simp, by simp⟩
    intro x _ hx
    simp at hx
  · rw [if_neg hc]
    refine ⟨fun h1 h2 => absurd ⟨h1, h2⟩ hc, fun _ => ⟨rfl, ?_⟩, ?_, by simp, ?_⟩
    · intro x
      by_cases h1 : b1 = 0 <;> by_cases h2 : b2 = 0 <;> simp [h1, h2] <;> omega
    · intro x hx
      simp at hx
    · by_cases h1 : b1 = 0 <;> by_cases h2 : b2 = 0 <;> simp [h1, h2]

/-- Witness for C9: equal nonzero requests (3, 3) give a full-leave block
and distinct requests (2, 5) give no full-leave block. -/
theorem C9_parse_leave_witness :
    parseLeaveRequests 3 3 = ⟨[3], []⟩ ∧ (parseLeaveRequests 2 5).full = [] :=
  ⟨(C9_parse_leave 3 3).1 (by decide) rfl,
   ((C9_parse_leave 2 5).2.1 (by decide)).1⟩

/-- Claim C10: a forced or forbidden override whose rotation name is not a
key of rotation_to_idx contributes no constraint at all — the builder's
output is identical to the output without that override, and the method has
no error path (it is a total function). -/
theorem C10_unknown_override_dropped
    (forced forbidden : List ((Nat × Nat) × String)) (r b : Nat) (name : String)
    (h : rotation_to_idx name = none) :
    addForcedAndForbidden (((r, b), name) :: forced) forbidden =
      addForcedAndForbidden forced forbidden ∧
    addForcedAndForbidden forced (((r, b), name) :: forbidden) =
      addForcedAndForbidden forced forbidden := by
  constructor <;> simp [addForcedAndForbidden, List.filterMap_cons, h]

/-- Witness for C10: the name "Dermatology" is not in the rotation catalog;
an override naming it is dropped and the rest of the model is unchanged. -/
theorem C10_unknown_override_dropped_witness :
    addForcedAndForbidden [((0, 0), "Dermatology")] [] =
      addForcedAndForbidden [] [] ∧
    addForcedAndForbidden [] [((0, 0), "Dermatology")] =
      addForcedAndForbidden [] [] :=
  C10_unknown_override_dropped [] [] 0 0 "Dermatology" (by decide)

-- Both linking constraints of each catalog rotation are among the emitted
-- decision constraints.
theorem decision_link_mem (rot : String) (h : rot ∈ ALL_ROTATIONS) :
    DecisionConstraint.linkEq rot (rotIdx rot) ∈ decisionConstraints ∧
    DecisionConstraint.linkNe rot (rotIdx rot) ∈ decisionConstraints := by
  constructor <;>
  · apply List.mem_append_left
    exact List.mem_flatMap.mpr ⟨rot, h, by simp⟩

/-- Claim C6: for one (resident, block) cell the emitted decision
constraints contain exactly one exactly-one constraint, ranging over the
full catalog, and both implication directions linking each indicator to the
categorical variable; consequently every valuation satisfying them makes
exactly one indicator true, and the categorical variable equals that
rotation's index.  The same constraints are emitted for every
(resident, block) pair by _create_decision_variables. -/
theorem C6_exactly_one_rotation :
    (decisionConstraints.countP
        (fun c => match c with
          | DecisionConstraint.exactlyOne _ => true
          | _ => false) = 1 ∧
      DecisionConstraint.exactlyOne ALL_ROTATIONS ∈ decisionConstraints ∧
      ∀ rot ∈ ALL_ROTATIONS,
        DecisionConstraint.linkEq rot (rotIdx rot) ∈ decisionConstraints ∧
        DecisionConstraint.linkNe rot (rotIdx rot) ∈ decisionConstraints) ∧
    ∀ (sx : Int) (sy : String → Bool),
      (∀ c ∈ decisionConstraints, decSat sx sy c = true) →
      ∃! rot, rot ∈ ALL_ROTATIONS ∧ sy rot = true ∧ sx = (rotIdx rot : Int) := by
  constructor
  · exact ⟨by decide, by decide, fun rot h => decision_link_mem rot h⟩
  · intro sx sy hsat
    have hone : ALL_ROTATIONS.countP sy = 1 := by
      have h := hsat (DecisionConstraint.exactlyOne ALL_ROTATIONS) (by decide)
      simpa [decSat] using h
    rw [List.countP_eq_length_filter] at hone
    obtain ⟨a, ha⟩ := List.length_eq_one.mp hone
    have hamem : a ∈ ALL_ROTATIONS ∧ sy a = true := by
      have hx : a ∈ ALL_ROTATIONS.filter sy := by
        rw [ha]
        exact List.mem_singleton_self a
      simpa using List.mem_filter.mp hx
    have hax : sx = (rotIdx a : Int) := by
      have hc := hsat (DecisionConstraint.linkEq a (rotIdx a))
        (decision_link_mem a hamem.1).1
      simpa [decSat, hamem.2] using hc
    refine ⟨a, ⟨hamem.1, hamem.2, hax⟩, ?_⟩
    rintro b ⟨hb, hby, hbx⟩
    have hbf : b ∈ ALL_ROTATIONS.filter sy := List.mem_filter.mpr ⟨hb, hby⟩
    rw [ha] at hbf
    simpa using hbf

def wSy : String → Bool := fun rot => rot == "Cardiology"

/-- Witness for C6: the valuation assigning index 0 (Cardiology) to the
categorical variable and truth only to the Cardiology indicator satisfies
every decision constraint, so exactly one rotation is held. -/
theorem C6_exactly_one_rotation_witness :
    ∃! rot, rot ∈ ALL_ROTATIONS ∧ wSy rot = true ∧ (0 : Int) = (rotIdx rot : Int) :=
  C6_exactly_one_rotation.2 0 wSy (by decide)

-- Valuation for the C4 counterexample: resident 0 holds Senior Rotation in
-- block indices 0 and 2, and every soft condition variable is false.
def yGapCex : Nat → Nat → String → Bool :=
  fun _ b rot => (rot == "Senior Rotation") && (b == 0 || b == 2)

def nvGapCex : SoftVar → Bool := fun _ => false

/-- Claim C4 (refuted by the code): the only linking constraint
_add_soft_r3_penalties emits for the fixed-gap condition variable
gap1(0, 0) is the forward AddBoolAnd implication — no reverse direction —
and the valuation where resident 0 holds Senior Rotation in blocks 0 and 2
while every condition variable (gap1(0, 0) included) is false satisfies
every emitted soft linking constraint; so the measured pattern can hold
with the condition variable false, refuting the claimed biconditional. -/
theorem C4_gap1_one_directional :
    (addSoftR3Constraints 0 "R3").filter (mentionsVar (SoftVar.gap1 0 0)) =
      [SoftConstraint.impliesAll (SoftVar.gap1 0 0)
        [(0, 0, "Senior Rotation"), (0, 2, "Senior Rotation")]] ∧
    (addSoftR3Constraints 0 "R3").all (softSat yGapCex nvGapCex) = true ∧
    yGapCex 0 0 "Senior Rotation" = true ∧
    yGapCex 0 2 "Senior Rotation" = true ∧
    nvGapCex (SoftVar.gap1 0 0) = false := by
  exact ⟨by decide, by decide, rfl, rfl, rfl⟩

/-- Claim C2 (refuted by the code): building the objective for a roster with
one R1 resident creates 22 weighted soft condition terms, yet the
soft-constraints map — initialized empty in __init__ — is still empty after
objective construction: no _add_soft_* method registers anything in it, and
no maximum achievable score is computed anywhere in the model builder. -/
theorem C2_soft_map_never_populated :
    (setObjectiveFunction ["R1"]).softConstraintsMap = [] ∧
    (setObjectiveFunction ["R1"]).objectiveTerms.length = 22 := by
  exact ⟨by decide, by decide⟩

-- Folding the score loop from an arbitrary accumulator just shifts the
-- result by that accumulator.
theorem rawScore_acc (l : List (String × Bool)) :
    ∀ a : Int,
      l.foldl (fun acc e => if e.2 then acc + entryWeight e.1 else acc) a =
        a + rawScore l := by
  induction l with
  | nil => intro a; simp [rawScore]
  | cons e t ih =>
    intro a
    simp only [rawScore, List.foldl_cons] at *
    by_cases he : e.2 = true
    · simp only [if_pos he]
      rw [ih (a + entryWeight e.1), ih (0 + entryWeight e.1)]
      ring
    · simp only [if_neg he]
      exact ih a

theorem rawScore_cons (e : String × Bool) (t : List (String × Bool)) :
    rawScore (e :: t) =
      (if e.2 then entryWeight e.1 else (0 : Int)) + rawScore t := by
  simp only [rawScore, List.foldl_cons]
  by_cases he : e.2 = true
  · simp only [if_pos he]
    rw [rawScore_acc t (0 + entryWeight e.1)]
    simp only [rawScore]
    ring
  · simp only [if_neg he]
    exact (zero_add _).symm

-- With no REWARD description present, every contribution is nonpositive and
-- the raw score vanishes exactly when no PENALTY-described entry is
-- satisfied.
theorem rawScore_no_reward (l : List (String × Bool))
    (h : ∀ e ∈ l, pyIn "REWARD" e.1 = false) :
    rawScore l ≤ 0 ∧
    (rawScore l = 0 ↔ ∀ e ∈ l, pyIn "PENALTY" e.1 = true → e.2 = false) := by
  induction l with
  | nil => simp [rawScore]
  | cons e t ih =>
    have he := h e (List.mem_cons_self e t)
    have ht := ih (fun x hx => h x (List.mem_cons_of_mem e hx))
    rw [rawScore_cons]
    by_cases hsat : e.2
    · by_cases hpen : pyIn "PENALTY" e.1 = true
      · have hw : entryWeight e.1 < 0 := by
          unfold entryWeight
          rw [if_neg (by simp [he]), if_pos hpen]
          by_cases hd : (pyIn "Senior" e.1 || pyIn "Registrar" e.1) = true <;>
            simp [hd, PENALTY_WEIGHT]
        constructor
        · have := ht.1
          simp only [hsat, if_true]
          omega
        · constructor
          · intro h0
            exfalso
            have := ht.1
            simp only [hsat, if_true] at h0
            omega
          · intro hall
            exfalso
            have hbad := hall e (List.mem_cons_self e t) hpen
            rw [hsat] at hbad
            simp at hbad
      · have hw : entryWeight e.1 = 0 := by
          unfold entryWeight
          rw [if_neg (by simp [he]), if_neg (by simp [hpen])]
        simp only [hsat, if_true, hw, zero_add]
        refine ⟨ht.1, ?_⟩
        rw [ht.2]
        constructor
        · intro hall x hx hpx
          rcases List.mem_cons.mp hx with hx' | hx'
          · exact absurd hpx (by rw [hx']; simp [hpen])
          · exact hall x hx' hpx
        · intro hall x hx hpx
          exact hall x (List.mem_cons_of_mem _ hx) hpx
    · have hs : e.2 = false := by
        cases hv : e.2
        · rfl
        · exact absurd hv hsat
      simp only [hs, if_false, Bool.false_eq_true, zero_add]
      refine ⟨ht.1, ?_⟩
      rw [ht.2]
      constructor
      · intro hall x hx hpx
        rcases List.mem_cons.mp hx with hx' | hx'
        · rw [hx']
          exact hs
        · exact hall x hx' hpx
      · intro hall x hx hpx
        exact hall x (List.mem_cons_of_mem _ hx) hpx

/-- Claim C7: the analyzer's normalized score is raw/max when the
precomputed maximum is positive, and on a zero maximum it is 1 exactly for
a zero raw score and 0 otherwise; hence with no positive-weight (REWARD)
rule registered, the normalized score is 1 iff no PENALTY-described
condition is satisfied, and is strictly below 1 whenever one is. -/
theorem C7_normalized_score :
    (∀ m r : Int, 0 < m → normalizedScore m r = (r : ℚ) / (m : ℚ)) ∧
    (∀ r : Int, normalizedScore 0 r = if r = 0 then 1 else 0) ∧
    ∀ entries : List (String × Bool),
      (∀ e ∈ entries, pyIn "REWARD" e.1 = false) →
      ((normalizedScore 0 (rawScore entries) = 1 ↔
          ∀ e ∈ entries, pyIn "PENALTY" e.1 = true → e.2 = false) ∧
        ∀ e ∈ entries, pyIn "PENALTY" e.1 = true → e.2 = true →
          normalizedScore 0 (rawScore entries) < 1) := by
  refine ⟨?_, ?_, ?_⟩
  · intro m r hm
    simp [normalizedScore, hm]
  · intro r
    simp [normalizedScore]
  · intro entries hnr
    have key := rawScore_no_reward entries hnr
    constructor
    · constructor
      · intro h1
        have h0 : rawScore entries = 0 := by
          by_contra hne
          simp [normalizedScore, hne] at h1
        exact key.2.mp h0
      · intro hall
        have h0 : rawScore entries = 0 := key.2.mpr hall
        simp [normalizedScore, h0]
    · intro e he hpe hsat
      have h0 : rawScore entries ≠ 0 := by
        intro h0
        have hfalse := (key.2.mp h0) e he hpe
        rw [hsat] at hfalse
        simp at hfalse
      simp [normalizedScore, h0]

/-- Witness for C7: a positive maximum of 2 with raw score 1 normalizes to
1/2, and with a zero maximum a single satisfied PENALTY rule drives the
normalized score strictly below 1. -/
theorem C7_normalized_score_witness :
    normalizedScore 2 1 = (1 : ℚ) / 2 ∧
    normalizedScore 0 (rawScore [("PENALTY: Senior Rotation close pair", true)]) < 1 :=
  ⟨C7_normalized_score.1 2 1 (by norm_num),
   (C7_normalized_score.2.2 [("PENALTY: Senior Rotation close pair", true)]
      (by decide)).2 ("PENALTY: Senior Rotation close pair", true)
      (List.mem_singleton_self _) (by decide) rfl⟩

-- The exemption guard fires exactly for the stated triple of conditions.
theorem isExemptReq_iff (pgy : String) (req : PGYRequirement) (fl : List Int) :
    isExemptReq pgy req fl = true ↔
      pgy = "R3" ∧
      sameSet req.rotations ["Cardiology", "ED", "Medical Consultation"] = true ∧
      fl ≠ [] := by
  cases fl <;> simp [isExemptReq]

/-- Claim C8: for a (level, requirement-group, resident) combination drawn
from the graduation table, the pair of quota constraints is omitted exactly
when the level is R3, the group is the Cardiology/ED/Medical-Consultation
elective set, and the resident has at least one full-leave block; every
other combination receives both bound constraints, whose joint satisfaction
is precisely min_blocks ≤ (matching assignments over the horizon) ≤
max_blocks. -/
theorem C8_graduation_exemption (pgy : String) (fl : List Int)
    (req : PGYRequirement) (_hreq : req ∈ gradReqsOf pgy) :
    (reqConstraints 0 pgy fl req = [] ↔
      pgy = "R3" ∧
      sameSet req.rotations ["Cardiology", "ED", "Medical Consultation"] = true ∧
      fl ≠ []) ∧
    (reqConstraints 0 pgy fl req ≠ [] →
      reqConstraints 0 pgy fl req =
        [GradConstraint.sumGe 0 (keptRots req) req.min_blocks,
         GradConstraint.sumLe 0 (keptRots req) req.max_blocks] ∧
      ∀ yv : Nat → Nat → String → Bool,
        (∀ c ∈ reqConstraints 0 pgy fl req, gradSat yv c) ↔
          (req.min_blocks ≤ countAssign yv 0 (keptRots req) ∧
            countAssign yv 0 (keptRots req) ≤ req.max_blocks)) := by
  constructor
  · rw [← isExemptReq_iff]
    unfold reqConstraints
    by_cases h : isExemptReq pgy req fl = true <;> simp [h]
  · intro hne
    have h : isExemptReq pgy req fl = false := by
      cases hv : isExemptReq pgy req fl
      · rfl
      · exfalso
        apply hne
        unfold reqConstraints
        rw [if_pos hv]
    unfold reqConstraints at hne ⊢
    rw [if_neg (by simp [h])]
    refine ⟨rfl, ?_⟩
    intro yv
    simp [gradSat]

/-- Witness for C8: the R3 elective group with a full-leave block is
omitted, while an R2 requirement group with no full leave is emitted. -/
theorem C8_graduation_exemption_witness :
    reqConstraints 0 "R3" [4]
      ⟨["Cardiology", "ED", "Medical Consultation"], 1, 1⟩ = [] ∧
    reqConstraints 0 "R2" [] ⟨["Senior Rotation"], 1, 2⟩ ≠ [] :=
  ⟨(C8_graduation_exemption "R3" [4]
      ⟨["Cardiology", "ED", "Medical Consultation"], 1, 1⟩ (by decide)).1.mpr
      ⟨rfl, by decide, by decide⟩,
   fun h => by
    have hx := (C8_graduation_exemption "R2" [] ⟨["Senior Rotation"], 1, 2⟩
      (by decide)).1.mp h
    exact absurd hx.1 (by decide)⟩
